import Mathlib

/-!
Shallow embedding of the Cisco NAT-translation dump processor (`main.go`):
the stream tokenizer (`routeSplitFunc` driven by a `bufio.Scanner` loop),
the protocol enumeration with its JSON (de)serialization, the record
parser (`NAT.Parse` and its helpers), and the aggregation performed in
`main`.  Byte strings are modelled as `List Char` (the program only ever
treats the input as ASCII bytes), Go `int`/`int64` values as `Int`
(no value in scope approaches the 64-bit range, so wrap-around is not
modelled), and Go runtime panics as an explicit `crash` outcome.
-/

namespace Cisco

/-- Coerce a Lean string literal to the `List Char` representation used
throughout the embedding. -/
def str (s : String) : List Char := s.data

/-- `bytes.Index data pat`: index of the first occurrence of `pat` in
`data`, `none` when absent (Go returns `-1`). -/
def findSubIdx (pat : List Char) : List Char → Option Nat
  | [] => if pat.isEmpty then some 0 else none
  | c :: rest =>
    if pat.isPrefixOf (c :: rest) then some 0
    else (findSubIdx pat rest).map (· + 1)

/-- `bytes.Contains` (used only in specifications of well-formedness). -/
def hasSub (pat l : List Char) : Bool := (findSubIdx pat l).isSome

/-! ## Record tokenizer (`routeSplitFunc`) -/

/-- `ROUTE_SEP = []byte("\n\n")`. -/
def ROUTE_SEP : List Char := ['\n', '\n']

/-- `ROUTE_HEADER = []byte("Pro")`. -/
def ROUTE_HEADER : List Char := ['P', 'r', 'o']

/-- The `(advance, token, err)` triple a `bufio.SplitFunc` returns. -/
structure SplitOut where
  advance : Nat
  token : Option (List Char)
  err : Option (List Char)
deriving DecidableEq, Repr

/-- The `from` offset of `routeSplitFunc`: when the buffer starts with the
header token, skip past the first newline (`bytes.Index(data, "\n") + 1`;
Go's `Index` returns `-1` when absent, making the offset `0`). -/
def headerFrom (data : List Char) : Nat :=
  if ROUTE_HEADER.isPrefixOf data then
    match findSubIdx ['\n'] data with
    | none => 0
    | some j => j + 1
  else 0

/-- `routeSplitFunc` from `main.go`, verbatim: find the blank-line
separator; at EOF accept a single trailing newline, otherwise signal the
malformed-stream error; when a separator was found, strip a leading
header line and emit `data[from:to]`.  The Go slice `data[:len(data)-1]`
is `dropLast`, and `data[from:to]` is `(data.take to).drop from` (the
two agree whenever `from ≤ to`, which holds in every reachable case of
the claims below). -/
def routeSplitFunc (data : List Char) (atEOF : Bool) : SplitOut :=
  if data.isEmpty && atEOF then ⟨0, none, none⟩
  else
    match findSubIdx ROUTE_SEP data with
    | none =>
      if !atEOF then
        ⟨0, none, none⟩
      else if data.getLast? == some '\n' then
        ⟨data.length, some data.dropLast, none⟩
      else
        ⟨0, none, some (str "Improperly formatted file: it must end with an empty line")⟩
    | some i =>
      ⟨i + ROUTE_SEP.length, some ((data.take i).drop (headerFrom data)), none⟩

/-- Result of driving the scanner over a whole input. -/
inductive TokResult where
  | ok (blocks : List (List Char))
  | err (msg : List Char)
deriving DecidableEq, Repr

/-- The `bufio.Scanner` driving loop of `main`, specialised to a fully
buffered input (`atEOF = true` on every call, which coincides with the
incremental behaviour because `routeSplitFunc` only consults `atEOF`
when no separator is buffered yet).  `fuel` is a structural-termination
bound; `tokenize` below supplies one that always suffices because every
emitted token advances the buffer by at least one byte. -/
def tokenizeFuel : Nat → List Char → TokResult
  | 0, _ => .err (str "internal: out of fuel")
  | fuel + 1, data =>
    match routeSplitFunc data true with
    | ⟨_, _, some e⟩ => .err e
    | ⟨_, none, none⟩ => .ok []
    | ⟨adv, some tok, none⟩ =>
      match tokenizeFuel fuel (data.drop adv) with
      | .ok rest => .ok (tok :: rest)
      | .err e => .err e

/-- Tokenize a complete input stream into record blocks. -/
def tokenize (data : List Char) : TokResult :=
  tokenizeFuel (data.length + 1) data

/-- A well-formed record block: non-empty, contains no blank-line
separator, neither starts nor ends with a newline, and does not itself
begin with the header token. -/
def goodBlock (b : List Char) : Prop :=
  b ≠ [] ∧ findSubIdx ROUTE_SEP b = none ∧
    b.head? ≠ some '\n' ∧ b.getLast? ≠ some '\n' ∧
    ROUTE_HEADER.isPrefixOf b = false

instance (b : List Char) : Decidable (goodBlock b) := by
  unfold goodBlock; infer_instance

/-- A well-formed header line: begins with the header token and spans a
single line. -/
def goodHeader (h : List Char) : Prop :=
  ROUTE_HEADER.isPrefixOf h = true ∧ '\n' ∉ h

instance (h : List Char) : Decidable (goodHeader h) := by
  unfold goodHeader; infer_instance

/-- Blocks joined by the blank-line separator. -/
def joinBlocks : List (List Char) → List Char
  | [] => []
  | [b] => b
  | b :: b' :: bs => b ++ ROUTE_SEP ++ joinBlocks (b' :: bs)

/-- A whole well-formed stream: separator-joined blocks plus the
mandatory trailing newline. -/
def tokenStream (bs : List (List Char)) : List Char :=
  joinBlocks bs ++ ['\n']

/-- The same stream preceded by a header line. -/
def withHeader (h s : List Char) : List Char := h ++ '\n' :: s

/-! ## Protocol enumeration -/

inductive NATProto where
  | udp
  | tcp
  | static
  | icmp
deriving DecidableEq, Repr

/-- Go's zero value of the `NATProto` integer type (`UDP_NAT = iota = 0`);
a missing map key yields this value. -/
def NATProto.zero : NATProto := .udp

/-- `NAT_TRANSLATION`: single source-character code to variant; a missing
key yields the Go zero value (unreachable through `Parse`, whose regex
admits only the four codes). -/
def NAT_TRANSLATION (c : Char) : NATProto :=
  if c = 'u' then .udp
  else if c = 't' then .tcp
  else if c = '-' then .static
  else if c = 'i' then .icmp
  else NATProto.zero

/-- `NAT_NAMES` as an association list (the Go map literal). -/
def NAT_NAMES : List (NATProto × List Char) :=
  [(.udp, str "udp"), (.tcp, str "tcp"), (.static, str "static"), (.icmp, str "icmp")]

/-- `reverseNATNames`: the reverse table built programmatically from the
forward table. -/
def reverseNATNames (names : List (NATProto × List Char)) : List (List Char × NATProto) :=
  names.map (fun p => (p.2, p.1))

def NAT_REVERSE_NAMES : List (List Char × NATProto) := reverseNATNames NAT_NAMES

/-- Go map lookup `NAT_NAMES[p]` (all four keys are present, so the
default is never reached). -/
def natName (p : NATProto) : List Char :=
  ((NAT_NAMES.find? (fun q => q.1 == p)).map (fun q => q.2)).getD []

/-- Go map lookup `NAT_REVERSE_NAMES[s]`: the zero value `UDP_NAT` when
the key is absent. -/
def natReverseLookup (s : List Char) : NATProto :=
  ((NAT_REVERSE_NAMES.find? (fun q => q.1 == s)).map (fun q => q.2)).getD NATProto.zero

/-- `MarshalJSON`: `json.Marshal(NAT_NAMES[nat])` — a quoted JSON string
(none of the four names needs escaping). -/
def marshalNATProto (p : NATProto) : List Char := '"' :: natName p ++ ['"']

/-- Minimal model of `json.Unmarshal(data, &string)`: accepts a quoted
string with no embedded quote or backslash and yields its contents;
anything else is a decode error.  Escape sequences are not modelled —
no protocol name contains one. -/
def jsonDecodeString (data : List Char) : Option (List Char) :=
  match data with
  | '"' :: rest =>
    if rest ≠ [] ∧ rest.getLast? = some '"' ∧
        (∀ c ∈ rest.dropLast, c ≠ '"' ∧ c ≠ '\\') then
      some rest.dropLast
    else none
  | _ => none

/-- `UnmarshalJSON` from `main.go`: decode the JSON string into `dest`
(left at its zero value `""` on failure), then assign
`NAT_REVERSE_NAMES[dest]` unconditionally, and return only the decode
error. -/
def unmarshalNATProto (data : List Char) : NATProto × Option (List Char) :=
  match jsonDecodeString data with
  | some s => (natReverseLookup s, none)
  | none =>
    (natReverseLookup [],
      some (str "json: cannot unmarshal value into Go value of type string"))

/-! ## Record parser (`NAT.Parse`) -/

/-- Outcome of a Go function that may also panic at runtime: `ok` a
value, `errv` a returned error, `crash` a runtime panic. -/
inductive POut (α : Type) where
  | ok (a : α)
  | errv (e : List Char)
  | crash (e : List Char)
deriving DecidableEq, Repr

/-- A Go `(value, error)` pair with exactly one side set. -/
inductive Res (α : Type) where
  | ok (a : α)
  | err (e : List Char)
deriving DecidableEq, Repr

def isDigitChar (c : Char) : Bool := '0' ≤ c && c ≤ '9'

def digitsToNat (ds : List Char) : Nat :=
  ds.foldl (fun acc c => acc * 10 + (c.toNat - '0'.toNat)) 0

structure IPv4 where
  a : Nat
  b : Nat
  c : Nat
  d : Nat
deriving DecidableEq, Repr

/-- One decimal octet of a dotted quad: 1–3 digits, no leading zero
(Go ≥ 1.17 `ParseIP` semantics), value ≤ 255. -/
def parseOctet (p : List Char) : Option Nat :=
  if p ≠ [] ∧ p.length ≤ 3 ∧ (∀ c ∈ p, isDigitChar c = true) ∧
      (p.head? = some '0' → p = ['0']) ∧ digitsToNat p ≤ 255 then
    some (digitsToNat p)
  else none

/-- Model of `net.ParseIP`, restricted to dotted-quad IPv4 literals; any
other text — including IPv6 forms, which no address in scope uses —
yields `none`, Go's nil `IP`. -/
def parseIP (s : List Char) : Option IPv4 :=
  match s.splitOn '.' with
  | [p1, p2, p3, p4] =>
    match parseOctet p1, parseOctet p2, parseOctet p3, parseOctet p4 with
    | some a, some b, some c, some d => some ⟨a, b, c, d⟩
    | _, _, _, _ => none
  | _ => none

def lastIdxOf (c : Char) : List Char → Option Nat
  | [] => none
  | x :: rest =>
    match lastIdxOf c rest with
    | some j => some (j + 1)
    | none => if x = c then some 0 else none

/-- `net.SplitHostPort` for unbracketed addresses (the only shape the
route regex admits — its fields never contain `[`): split at the last
colon; error when no colon exists or the host part still contains one.
Error text follows `net.AddrError.Error()`. -/
def splitHostPort (s : List Char) : Res (List Char × List Char) :=
  match lastIdxOf ':' s with
  | none => .err (str "address " ++ s ++ str ": missing port in address")
  | some i =>
    if ':' ∈ s.take i then
      .err (str "address " ++ s ++ str ": too many colons in address")
    else .ok (s.take i, s.drop (i + 1))

/-- `strconv.Atoi`: an optional sign followed by at least one decimal
digit.  64-bit overflow is not modelled; no value in scope approaches
the limit. -/
def atoi (s : List Char) : Res Int :=
  match s with
  | '+' :: digits =>
    if digits ≠ [] ∧ (∀ c ∈ digits, isDigitChar c = true) then
      .ok (digitsToNat digits : Int)
    else .err (str "strconv.Atoi: parsing " ++ '"' :: s ++ str "\": invalid syntax")
  | '-' :: digits =>
    if digits ≠ [] ∧ (∀ c ∈ digits, isDigitChar c = true) then
      .ok (-(digitsToNat digits : Int))
    else .err (str "strconv.Atoi: parsing " ++ '"' :: s ++ str "\": invalid syntax")
  | _ =>
    if s ≠ [] ∧ (∀ c ∈ s, isDigitChar c = true) then
      .ok (digitsToNat s : Int)
    else .err (str "strconv.Atoi: parsing " ++ '"' :: s ++ str "\": invalid syntax")

/-- `parseIpPort` from `main.go`: split the field, wrap a split failure
as an address error naming the logical field, parse the IP (its nil
result is NOT checked, as in the source), and wrap an `Atoi` failure as
a port error naming the field.  No range check is applied to the port. -/
def parseIpPort (data : List Char) (name : List Char) : Res (Option IPv4 × Int) :=
  match splitHostPort data with
  | .err e => .err (str "Could not parse " ++ name ++ str " address: " ++ e)
  | .ok (host, port) =>
    match atoi port with
    | .err e => .err (str "Could not parse " ++ name ++ str " port: " ++ e)
    | .ok p => .ok (parseIP host, p)

/-- Go regexp `\s`: exactly `[\t\n\f\r ]`. -/
def isSpaceChar (c : Char) : Bool :=
  c = ' ' || c = '\t' || c = '\n' || c = '\x0c' || c = '\r'

/-- The `ROUTE_REGEXP` field class `[\-\:0-9\.]`. -/
def isAddrChar (c : Char) : Bool :=
  c = '-' || c = ':' || c = '.' || ('0' ≤ c && c ≤ '9')

/-- The five capture groups of `ROUTE_REGEXP`. -/
structure RouteMatch where
  g1 : List Char
  g2 : List Char
  g3 : List Char
  g4 : List Char
  g5 : List Char
deriving DecidableEq, Repr

/-- One `\s+` gap followed by one `([\-\:0-9\.]+)` capture.  The two
character classes are disjoint, so the greedy decomposition is unique
and maximal runs are faithful to the regex engine. -/
def spacesThenField (s : List Char) : Option (List Char × List Char) :=
  if (s.takeWhile isSpaceChar).isEmpty then none
  else
    let r := s.dropWhile isSpaceChar
    let f := r.takeWhile isAddrChar
    if f.isEmpty then none
    else some (f, r.drop f.length)

/-- The anchored alternation `^(-{3}|tcp|udp|icmp)`.  The four literals
are mutually prefix-free, so first-match is faithful. -/
def matchProtoCode (s : List Char) : Option (List Char × List Char) :=
  if (str "---").isPrefixOf s then some (str "---", s.drop 3)
  else if (str "tcp").isPrefixOf s then some (str "tcp", s.drop 3)
  else if (str "udp").isPrefixOf s then some (str "udp", s.drop 3)
  else if (str "icmp").isPrefixOf s then some (str "icmp", s.drop 4)
  else none

/-- `ROUTE_REGEXP.FindSubmatch` on one line: the anchored five-token
pattern, returning `none` exactly when Go returns a nil match. -/
def routeFindSubmatch (line : List Char) : Option RouteMatch :=
  match matchProtoCode line with
  | none => none
  | some (g1, r1) =>
    match spacesThenField r1 with
    | none => none
    | some (g2, r2) =>
      match spacesThenField r2 with
      | none => none
      | some (g3, r3) =>
        match spacesThenField r3 with
        | none => none
        | some (g4, r4) =>
          match spacesThenField r4 with
          | none => none
          | some (g5, r5) =>
            if r5.isEmpty then some ⟨g1, g2, g3, g4, g5⟩ else none

/-- The three capture groups of `TIME_REGEXP`. -/
structure TimeMatch where
  t1 : List Char
  t2 : List Char
  t3 : List Char
deriving DecidableEq, Repr

/-- `\s+<literal>`: a non-empty whitespace run followed by a literal
that starts with a non-space character, so the greedy run is exact. -/
def spacesThenLit (lit s : List Char) : Option (List Char) :=
  if (s.takeWhile isSpaceChar).isEmpty then none
  else
    let r := s.dropWhile isSpaceChar
    if lit.isPrefixOf r then some (r.drop lit.length) else none

/-- `\s+([^,]+),`: whitespace, a non-empty comma-free capture, then the
comma.  (When the text between literal and comma is entirely whitespace
the Go engine would backtrack and capture a lone space; no field in
scope is whitespace-only, and that corner is left unmodelled.) -/
def spacesThenFieldComma (s : List Char) : Option (List Char × List Char) :=
  if (s.takeWhile isSpaceChar).isEmpty then none
  else
    let r := s.dropWhile isSpaceChar
    let f := r.takeWhile (fun c => c ≠ ',')
    if f.isEmpty then none
    else
      match r.drop f.length with
      | ',' :: rest => some (f, rest)
      | _ => none

/-- `\s+([^,]+)$`: whitespace, then a non-empty comma-free capture
running to the end of the line. -/
def spacesThenFieldEnd (s : List Char) : Option (List Char) :=
  if (s.takeWhile isSpaceChar).isEmpty then none
  else
    let r := s.dropWhile isSpaceChar
    if r ≠ [] ∧ ',' ∉ r then some r else none

/-- `TIME_REGEXP.FindSubmatch` on one line:
`^\s+create:\s+([^,]+),\s+use:\s+([^,]+),\s+timeout:\s+([^,]+)$`. -/
def timeFindSubmatch (line : List Char) : Option TimeMatch :=
  match spacesThenLit (str "create:") line with
  | none => none
  | some r1 =>
    match spacesThenFieldComma r1 with
    | none => none
    | some (t1, r2) =>
      match spacesThenLit (str "use:") r2 with
      | none => none
      | some r3 =>
        match spacesThenFieldComma r3 with
        | none => none
        | some (t2, r4) =>
          match spacesThenLit (str "timeout:") r4 with
          | none => none
          | some r5 =>
            match spacesThenFieldEnd r5 with
            | none => none
            | some t3 => some ⟨t1, t2, t3⟩

structure DateTime where
  year : Nat
  month : Nat
  day : Nat
  hour : Nat
  minute : Nat
  second : Nat
deriving DecidableEq, Repr

def isLeapYear (y : Nat) : Bool :=
  y % 4 = 0 && (y % 100 ≠ 0 || y % 400 = 0)

def daysInMonth (m y : Nat) : Nat :=
  if m = 2 then (if isLeapYear y then 29 else 28)
  else if m = 4 ∨ m = 6 ∨ m = 9 ∨ m = 11 then 30
  else 31

/-- A fixed-width two-digit number in a layout string. -/
def twoDigits : List Char → Option (Nat × List Char)
  | c1 :: c2 :: rest =>
    if isDigitChar c1 && isDigitChar c2 then some (digitsToNat [c1, c2], rest)
    else none
  | _ => none

/-- The `15` hour verb of a Go layout accepts one or two digits. -/
def hourDigits : List Char → Option (Nat × List Char)
  | [] => none
  | [c1] => if isDigitChar c1 then some (digitsToNat [c1], []) else none
  | c1 :: c2 :: rest =>
    if isDigitChar c1 then
      if isDigitChar c2 then some (digitsToNat [c1, c2], rest)
      else some (digitsToNat [c1], c2 :: rest)
    else none

/-- `time.Parse` with the fixed layout `01/02/06 15:04:05` (`DATE_FORMAT`):
two-digit month, day and two-digit year, a space, a one- or two-digit
24-hour value, two-digit minutes and seconds; Go's range validation and
two-digit-year mapping (69–99 → 19xx, 00–68 → 20xx).  Time zones and
sub-seconds do not occur in this layout. -/
def timeParse (s : List Char) : Res DateTime :=
  match twoDigits s with
  | some (mo, '/' :: r1) =>
    match twoDigits r1 with
    | some (dy, '/' :: r2) =>
      match twoDigits r2 with
      | some (yr, ' ' :: r3) =>
        match hourDigits r3 with
        | some (hh, ':' :: r4) =>
          match twoDigits r4 with
          | some (mi, ':' :: r5) =>
            match twoDigits r5 with
            | some (se, []) =>
              let year := if 69 ≤ yr then 1900 + yr else 2000 + yr
              if 1 ≤ mo ∧ mo ≤ 12 ∧ 1 ≤ dy ∧ dy ≤ daysInMonth mo year ∧
                  hh ≤ 23 ∧ mi ≤ 59 ∧ se ≤ 59 then
                .ok ⟨year, mo, dy, hh, mi, se⟩
              else .err (str "parsing time " ++ s ++ str ": out of range")
            | _ => .err (str "parsing time " ++ s ++ str ": cannot parse")
          | _ => .err (str "parsing time " ++ s ++ str ": cannot parse")
        | _ => .err (str "parsing time " ++ s ++ str ": cannot parse")
      | _ => .err (str "parsing time " ++ s ++ str ": cannot parse")
    | _ => .err (str "parsing time " ++ s ++ str ": cannot parse")
  | _ => .err (str "parsing time " ++ s ++ str ": cannot parse")

/-- Nanoseconds per duration unit, as in `time.ParseDuration`'s unit map
(the unicode `µs` aliases are omitted; nothing in scope uses them). -/
def durUnitNs (u : List Char) : Option Int :=
  if u = str "ns" then some 1
  else if u = str "us" then some 1000
  else if u = str "ms" then some 1000000
  else if u = str "s" then some 1000000000
  else if u = str "m" then some 60000000000
  else if u = str "h" then some 3600000000000
  else none

/-- The `<digits><unit>` group loop of `time.ParseDuration`; `fuel` is a
structural bound, always sufficient since each group consumes at least
two characters. -/
def parseDurationLoop : Nat → List Char → Res Int
  | 0, _ => .err (str "internal: out of fuel")
  | _, [] => .ok 0
  | fuel + 1, s =>
    let ds := s.takeWhile isDigitChar
    if ds.isEmpty then .err (str "time: invalid duration")
    else
      let r := s.drop ds.length
      let us := r.takeWhile (fun c => !isDigitChar c)
      if us.isEmpty then .err (str "time: missing unit in duration")
      else
        match durUnitNs us with
        | none => .err (str "time: unknown unit in duration")
        | some u =>
          match parseDurationLoop fuel (r.drop us.length) with
          | .ok v => .ok ((digitsToNat ds : Int) * u + v)
          | .err e => .err e

/-- `time.ParseDuration`, restricted to integral values: an optional
sign, the special case `0`, then one or more `<digits><unit>` groups.
Fractional values like `1.5h` and 64-bit overflow are not modelled — no
duration in scope uses them.  The result is in nanoseconds, as Go's
`time.Duration`. -/
def parseDuration (s : List Char) : Res Int :=
  match s with
  | [] => .err (str "time: invalid duration")
  | _ =>
    let signBody : Int × List Char :=
      match s with
      | '-' :: rest => (-1, rest)
      | '+' :: rest => (1, rest)
      | _ => (1, s)
    if signBody.2 = ['0'] then .ok 0
    else if signBody.2 = [] then .err (str "time: invalid duration")
    else
      match parseDurationLoop (signBody.2.length + 1) signBody.2 with
      | .ok v => .ok (signBody.1 * v)
      | .err e => .err e

/-- `DURATION_REGEXP.ReplaceAll(times[3], DURATION_REPLACE)`: the pattern
`^(\d\d):(\d\d):(\d\d)$` is anchored to the whole string, so the text is
either rewritten to `<H>h<M>m<S>s` or left untouched. -/
def durationRewrite (s : List Char) : List Char :=
  match s with
  | [h1, h2, ':', m1, m2, ':', s1, s2] =>
    if isDigitChar h1 && isDigitChar h2 && isDigitChar m1 && isDigitChar m2 &&
        isDigitChar s1 && isDigitChar s2 then
      [h1, h2, 'h', m1, m2, 'm', s1, s2, 's']
    else s
  | _ => s

/-- The `NAT` record.  `Option IPv4` models Go's possibly-nil `net.IP`;
ports and timeout are Go `int`/`time.Duration` values (nanoseconds). -/
structure NATRec where
  Proto : NATProto
  InsideGlobal : Option IPv4
  InsideGlobalPort : Int
  InsideLocal : Option IPv4
  InsideLocalPort : Int
  OutsideLocal : Option IPv4
  OutsideLocalPort : Int
  OutsideGlobal : Option IPv4
  OutsideGlobalPort : Int
  Created : DateTime
  Used : DateTime
  Timeout : Int
deriving DecidableEq, Repr

/-- First line split at the first newline, second line at the second;
`bytes.SplitN(data, "\n", 3)` (always at least one piece). -/
def splitOnFirst (c : Char) : List Char → Option (List Char × List Char)
  | [] => none
  | x :: rest =>
    if x = c then some ([], rest)
    else
      match splitOnFirst c rest with
      | some (pre, post) => some (x :: pre, post)
      | none => none

def splitN3 (data : List Char) : List (List Char) :=
  match splitOnFirst '\n' data with
  | none => [data]
  | some (l0, rest) =>
    match splitOnFirst '\n' rest with
    | none => [l0, rest]
    | some (l1, rest2) => [l0, l1, rest2]

/-- The address-parsing phase of `NAT.Parse`: four bare `net.ParseIP`
calls for the static variant — the port fields are never assigned and
keep the zero value — otherwise four `parseIpPort` calls, each failure
short-circuiting with its error. -/
structure AddrFields where
  ig : Option IPv4
  igp : Int
  il : Option IPv4
  ilp : Int
  ol : Option IPv4
  olp : Int
  og : Option IPv4
  ogp : Int
deriving DecidableEq, Repr

def parseAddrs (m : RouteMatch) (proto : NATProto) : Res AddrFields :=
  if proto = NATProto.static then
    .ok ⟨parseIP m.g2, 0, parseIP m.g3, 0, parseIP m.g4, 0, parseIP m.g5, 0⟩
  else
    match parseIpPort m.g2 (str "Inside Global") with
    | .err e => .err e
    | .ok (ig, igp) =>
      match parseIpPort m.g3 (str "Inside Local") with
      | .err e => .err e
      | .ok (il, ilp) =>
        match parseIpPort m.g4 (str "Outside Local") with
        | .err e => .err e
        | .ok (ol, olp) =>
          match parseIpPort m.g5 (str "Outside Global") with
          | .err e => .err e
          | .ok (og, ogp) => .ok ⟨ig, igp, il, ilp, ol, olp, og, ogp⟩

/-- `NAT.Parse` from `main.go`.  `.ok` is a fully populated record,
`.errv` a returned error, `.crash` a Go runtime panic: indexing the nil
result of a failed `FindSubmatch` (`ips[1]`, `times[1]`), or `lines[1]`
when the block has fewer than two lines.  `m.g1.headD ' '` stands for
`ips[1][0]`; the default is unreachable because the matched group is one
of the four non-empty code literals. -/
def Parse (data : List Char) : POut NATRec :=
  let lines := splitN3 data
  match routeFindSubmatch (lines.headD []) with
  | none => .crash (str "runtime error: index out of range")
  | some m =>
    let proto := NAT_TRANSLATION (m.g1.headD ' ')
    match parseAddrs m proto with
    | .err e => .errv e
    | .ok a =>
      match lines[1]? with
      | none => .crash (str "runtime error: index out of range")
      | some line1 =>
        match timeFindSubmatch line1 with
        | none => .crash (str "runtime error: index out of range")
        | some t =>
          match timeParse t.t1 with
          | .err e => .errv e
          | .ok created =>
            match timeParse t.t2 with
            | .err e => .errv e
            | .ok used =>
              match parseDuration (durationRewrite t.t3) with
              | .err e => .errv e
              | .ok d =>
                .ok ⟨proto, a.ig, a.igp, a.il, a.ilp, a.ol, a.olp, a.og, a.ogp,
                  created, used, d⟩

/-! ## Aggregation (`main`) -/

/-- `NATS.Where` from `main.go` (the Go loop appends in input order,
which is exactly a filter). -/
def Where (nats : List NATRec) (fn : NATRec → Bool) : List NATRec :=
  match nats with
  | [] => []
  | n :: rest => if fn n then n :: Where rest fn else Where rest fn

/-- Go integer division (`time.Duration` division is `int64` division):
truncates toward zero, and panics at runtime on a zero divisor. -/
def goDivInt (a b : Int) : Res Int :=
  if b = 0 then .err (str "runtime error: integer divide by zero")
  else .ok (Int.tdiv a b)

/-- `long_time = 1 * time.Hour`, in nanoseconds. -/
def long_time_ns : Int := 3600000000000

def long_time_left (n : NATRec) : Bool := n.Timeout > long_time_ns

def nat_type (t : NATProto) (n : NATRec) : Bool := n.Proto == t

def sumTimeouts (ns : List NATRec) : Int :=
  ns.foldl (fun acc n => acc + n.Timeout) 0

/-- The numbers `main` prints: the two average timeouts and, per
protocol, the count, the over-threshold count and its percentage. -/
structure MainStats where
  avgUdp : Int
  avgTcp : Int
  udpCount : Nat
  longUdp : Nat
  pctUdp : Int
  tcpCount : Nat
  longTcp : Nat
  pctTcp : Int
  icmpCount : Nat
  longIcmp : Nat
  pctIcmp : Int
deriving DecidableEq, Repr

/-- The aggregation pass of `main`, with every Go division explicit and
in print order: `sum/len` for the udp and tcp averages, then
`len(long)*100/len` for the three percentages.  None carries a zero
guard, so the first empty partition in that order aborts with the
runtime divide-by-zero error, exactly as the Go program panics. -/
def mainReport (nats : List NATRec) : Res MainStats :=
  let udp_nats := Where nats (nat_type .udp)
  let tcp_nats := Where nats (nat_type .tcp)
  let icmp_nats := Where nats (nat_type .icmp)
  let long_udp := Where udp_nats long_time_left
  let long_tcp := Where tcp_nats long_time_left
  let long_icmp := Where icmp_nats long_time_left
  match goDivInt (sumTimeouts udp_nats) (udp_nats.length : Int) with
  | .err e => .err e
  | .ok avgUdp =>
    match goDivInt (sumTimeouts tcp_nats) (tcp_nats.length : Int) with
    | .err e => .err e
    | .ok avgTcp =>
      match goDivInt ((long_udp.length : Int) * 100) (udp_nats.length : Int) with
      | .err e => .err e
      | .ok pctUdp =>
        match goDivInt ((long_tcp.length : Int) * 100) (tcp_nats.length : Int) with
        | .err e => .err e
        | .ok pctTcp =>
          match goDivInt ((long_icmp.length : Int) * 100) (icmp_nats.length : Int) with
          | .err e => .err e
          | .ok pctIcmp =>
            .ok ⟨avgUdp, avgTcp, udp_nats.length, long_udp.length, pctUdp,
              tcp_nats.length, long_tcp.length, pctTcp,
              icmp_nats.length, long_icmp.length, pctIcmp⟩

/-! ## Tokenizer proofs -/

/-! ### Tokenizer lemmas -/

lemma isPrefixOf_nil_false (pat : List Char) (h : pat ≠ []) :
    pat.isPrefixOf ([] : List Char) = false := by
  cases pat with
  | nil => exact absurd rfl h
  | cons p ps => rfl

lemma noOccur_of_findSubIdx_none {pat l : List Char} (hpat : pat ≠ [])
    (h : findSubIdx pat l = none) : ∀ m, pat.isPrefixOf (l.drop m) = false := by
  induction l with
  | nil => intro m; simpa using isPrefixOf_nil_false pat hpat
  | cons c l ih =>
    intro m
    rw [findSubIdx] at h
    by_cases hp : pat.isPrefixOf (c :: l) = true
    · simp [hp] at h
    · have hl : findSubIdx pat l = none := by
        rcases hfl : findSubIdx pat l with _ | v
        · rfl
        · simp [hp, hfl] at h
      cases m with
      | zero => simpa using Bool.eq_false_iff.mpr (by simpa using hp)
      | succ m => simpa using ih hl m

lemma findSubIdx_append (pat b t : List Char)
    (hocc : ∀ m, m < b.length → pat.isPrefixOf ((b ++ t).drop m) = false) :
    findSubIdx pat (b ++ t) = (findSubIdx pat t).map (· + b.length) := by
  induction b with
  | nil =>
    simp only [List.nil_append, List.length_nil]
    cases findSubIdx pat t <;> simp
  | cons c b ih =>
    have h0 : pat.isPrefixOf (c :: (b ++ t)) = false := by
      simpa using hocc 0 (by simp)
    rw [List.cons_append, findSubIdx, h0]
    have hrec := ih (fun m hm => by
      simpa using hocc (m + 1) (by simpa using Nat.succ_lt_succ hm))
    rw [if_neg (by simp), hrec]
    cases findSubIdx pat t <;> simp
    omega

lemma isPrefixOf_append_of_le (pat x t : List Char) (h : pat.length ≤ x.length) :
    pat.isPrefixOf (x ++ t) = pat.isPrefixOf x := by
  induction pat generalizing x with
  | nil => simp [List.isPrefixOf]
  | cons p ps ih =>
    cases x with
    | nil => simp at h
    | cons c x => simp [List.isPrefixOf, ih x (by simpa using h)]

lemma sepIdx_append (b t : List Char) (h1 : findSubIdx ROUTE_SEP b = none)
    (h2 : b.getLast? ≠ some '\n') :
    findSubIdx ROUTE_SEP (b ++ t) = (findSubIdx ROUTE_SEP t).map (· + b.length) := by
  apply findSubIdx_append
  intro m hm
  have hpt := noOccur_of_findSubIdx_none (by decide : ROUTE_SEP ≠ []) h1
  rw [List.drop_append_of_le_length (le_of_lt hm)]
  by_cases hm2 : m + 2 ≤ b.length
  · rw [isPrefixOf_append_of_le _ _ _ (by simp [ROUTE_SEP, List.length_drop]; omega)]
    exact hpt m
  · have hm1 : m + 1 = b.length := by omega
    have hlast : b.getLast? = some b[m] := by
      rw [List.getLast?_eq_getElem? b, ← hm1]
      simp
    have hbm : b[m] ≠ '\n' := fun hc => h2 (by rw [hlast, hc])
    rw [List.drop_eq_getElem_cons hm, show b.drop (m + 1) = [] from hm1 ▸ List.drop_length b]
    simp [ROUTE_SEP, List.isPrefixOf]
    intro hcc
    exact absurd hcc.symm hbm

lemma nlIdx_append (b t : List Char) (h : '\n' ∉ b) :
    findSubIdx ['\n'] (b ++ t) = (findSubIdx ['\n'] t).map (· + b.length) := by
  apply findSubIdx_append
  intro m hm
  have hbm : b[m] ≠ '\n' := fun hc => h (hc ▸ List.getElem_mem hm)
  rw [List.drop_append_of_le_length (le_of_lt hm), List.drop_eq_getElem_cons hm]
  simp [List.isPrefixOf]
  intro hcc
  exact absurd hcc.symm hbm

lemma sep_none_of_noNL (b : List Char) (h : '\n' ∉ b) :
    findSubIdx ROUTE_SEP b = none := by
  induction b with
  | nil => rfl
  | cons c b ih =>
    have hc : c ≠ '\n' := fun hc => h (hc ▸ List.mem_cons_self c b)
    have hpre : ROUTE_SEP.isPrefixOf (c :: b) = false := by
      simp [ROUTE_SEP, List.isPrefixOf]
      intro hcc
      exact absurd hcc.symm hc
    rw [findSubIdx, hpre, if_neg (by simp), ih (fun hm => h (List.mem_cons_of_mem c hm))]
    rfl

lemma getLast?_ne_of_noNL (b : List Char) (h : '\n' ∉ b) :
    b.getLast? ≠ some '\n' := by
  intro hl
  cases b with
  | nil => simp at hl
  | cons c b =>
    have : '\n' ∈ c :: b := by
      have := List.getLast?_eq_getElem? (c :: b) ▸ hl
      exact List.getElem?_mem this
    exact h this

lemma head?_append_left (b t : List Char) (hb : b ≠ []) :
    (b ++ t).head? = b.head? := by
  cases b with
  | nil => exact absurd rfl hb
  | cons c b => simp

lemma header_prefix_false (b t : List Char) (hb : ROUTE_HEADER.isPrefixOf b = false)
    (ht : t.head? = some '\n') : ROUTE_HEADER.isPrefixOf (b ++ t) = false := by
  obtain ⟨t', rfl⟩ : ∃ t', t = '\n' :: t' := by
    cases t with
    | nil => simp at ht
    | cons c t' => exact ⟨t', by simpa using ht⟩
  match b with
  | [] => simp [ROUTE_HEADER, List.isPrefixOf]
  | [c1] => simp [ROUTE_HEADER, List.isPrefixOf]
  | [c1, c2] => simp [ROUTE_HEADER, List.isPrefixOf]
  | c1 :: c2 :: c3 :: b' => simpa [ROUTE_HEADER, List.isPrefixOf] using hb

lemma sepIdx_cons_nl (z : List Char) (hz : z.head? ≠ some '\n') :
    findSubIdx ROUTE_SEP ('\n' :: z) = (findSubIdx ROUTE_SEP z).map (· + 1) := by
  have hpre : ROUTE_SEP.isPrefixOf ('\n' :: z) = false := by
    cases z with
    | nil => rfl
    | cons c z' =>
      have hc : c ≠ '\n' := fun hc => hz (by simp [hc])
      simp [ROUTE_SEP, List.isPrefixOf]
      intro hcc
      exact absurd hcc.symm hc
  rw [findSubIdx, hpre, if_neg (by simp)]

lemma isPrefixOf_of_isPrefixOf_append (pat h t : List Char)
    (hp : pat.isPrefixOf h = true) : pat.isPrefixOf (h ++ t) = true := by
  rw [List.isPrefixOf_iff_prefix] at hp ⊢
  exact hp.trans (List.prefix_append h t)

lemma tokenizeFuel_nil (f : Nat) (hf : 0 < f) : tokenizeFuel f [] = .ok [] := by
  cases f with
  | zero => omega
  | succ f => rfl

lemma headerFrom_of_no_header (data : List Char)
    (h : ROUTE_HEADER.isPrefixOf data = false) : headerFrom data = 0 := by
  rw [headerFrom, if_neg (by simp [h])]

lemma routeSplit_sep_eval (data : List Char) (i : Nat) (hne : data.isEmpty = false)
    (hidx : findSubIdx ROUTE_SEP data = some i) :
    routeSplitFunc data true =
      ⟨i + 2, some ((data.take i).drop (headerFrom data)), none⟩ := by
  rw [routeSplitFunc, if_neg (by simp [hne]), hidx]
  rfl

lemma routeSplit_eof_nl (data : List Char) (hne : data.isEmpty = false)
    (hidx : findSubIdx ROUTE_SEP data = none)
    (hnl : (data.getLast? == some '\n') = true) :
    routeSplitFunc data true = ⟨data.length, some data.dropLast, none⟩ := by
  rw [routeSplitFunc, if_neg (by simp [hne]), hidx, hnl]
  rfl

lemma routeSplit_eof_err (data : List Char) (hne : data.isEmpty = false)
    (hidx : findSubIdx ROUTE_SEP data = none)
    (hnl : (data.getLast? == some '\n') = false) :
    routeSplitFunc data true =
      ⟨0, none, some (str "Improperly formatted file: it must end with an empty line")⟩ := by
  rw [routeSplitFunc, if_neg (by simp [hne]), hidx, hnl]
  rfl

lemma sepIdx_block_stream (b rest : List Char) (hbsep : findSubIdx ROUTE_SEP b = none)
    (hblast : b.getLast? ≠ some '\n') :
    findSubIdx ROUTE_SEP (b ++ (ROUTE_SEP ++ rest)) = some b.length := by
  rw [sepIdx_append b _ hbsep hblast]
  have h0 : findSubIdx ROUTE_SEP (ROUTE_SEP ++ rest) = some 0 := by
    rw [show ROUTE_SEP ++ rest = '\n' :: '\n' :: rest from rfl, findSubIdx]
    rw [if_pos (by simp [ROUTE_SEP, List.isPrefixOf])]
  rw [h0]
  simp

/-- The scanner loop turns a well-formed header-free stream into exactly
its list of blocks, given enough fuel. -/
lemma tokenizeFuel_stream (bs : List (List Char)) :
    ∀ fuel, (∀ b ∈ bs, goodBlock b) → bs ≠ [] →
      (tokenStream bs).length < fuel →
      tokenizeFuel fuel (tokenStream bs) = .ok bs := by
  induction bs with
  | nil => intro fuel _ hne _; exact absurd rfl hne
  | cons b bs ih =>
    intro fuel hgood _ hlen
    obtain ⟨hbne, hbsep, hbhead, hblast, hbhdr⟩ := hgood b (List.mem_cons_self b bs)
    cases bs with
    | nil =>
      have hts : tokenStream [b] = b ++ ['\n'] := by simp [tokenStream, joinBlocks]
      rw [hts] at hlen ⊢
      cases fuel with
      | zero => exact absurd hlen (Nat.not_lt_zero _)
      | succ f =>
        have hidx : findSubIdx ROUTE_SEP (b ++ ['\n']) = none := by
          rw [sepIdx_append b ['\n'] hbsep hblast]; rfl
        have hsplit : routeSplitFunc (b ++ ['\n']) true =
            ⟨(b ++ ['\n']).length, some b, none⟩ := by
          rw [routeSplit_eof_nl (b ++ ['\n']) (by simp) hidx (by simp)]
          simp
        rw [tokenizeFuel, hsplit]
        have hlen1 : (b ++ ['\n']).length = b.length + 1 := by simp
        simp only [List.drop_length, tokenizeFuel_nil f (by omega)]
    | cons b' bs' =>
      have hdata : tokenStream (b :: b' :: bs') =
          b ++ (ROUTE_SEP ++ tokenStream (b' :: bs')) := by
        simp [tokenStream, joinBlocks, List.append_assoc]
      rw [hdata] at hlen ⊢
      cases fuel with
      | zero => exact absurd hlen (Nat.not_lt_zero _)
      | succ f =>
        have hidx : findSubIdx ROUTE_SEP
            (b ++ (ROUTE_SEP ++ tokenStream (b' :: bs'))) = some b.length :=
          sepIdx_block_stream b _ hbsep hblast
        have hhdr : ROUTE_HEADER.isPrefixOf
            (b ++ (ROUTE_SEP ++ tokenStream (b' :: bs'))) = false :=
          header_prefix_false b _ hbhdr rfl
        have hsplit : routeSplitFunc (b ++ (ROUTE_SEP ++ tokenStream (b' :: bs'))) true =
            ⟨b.length + 2, some b, none⟩ := by
          rw [routeSplit_sep_eval _ b.length (by simp [hbne]) hidx,
            headerFrom_of_no_header _ hhdr]
          simp [List.take_left]
        have hdrop : (b ++ (ROUTE_SEP ++ tokenStream (b' :: bs'))).drop (b.length + 2) =
            tokenStream (b' :: bs') := by
          rw [show b ++ (ROUTE_SEP ++ tokenStream (b' :: bs')) =
            (b ++ ROUTE_SEP) ++ tokenStream (b' :: bs') from (List.append_assoc ..).symm]
          rw [show b.length + 2 = (b ++ ROUTE_SEP).length from by simp [ROUTE_SEP]]
          exact List.drop_left _ _
        have hlen2 : (b ++ (ROUTE_SEP ++ tokenStream (b' :: bs'))).length =
            b.length + 2 + (tokenStream (b' :: bs')).length := by
          simp [ROUTE_SEP]
          omega
        rw [tokenizeFuel, hsplit]
        simp only [hdrop]
        rw [ih f (fun x hx => hgood x (List.mem_cons_of_mem _ hx))
          (List.cons_ne_nil b' bs') (by omega)]

lemma isEmpty_false_of_ne_nil (l : List Char) (h : l ≠ []) : l.isEmpty = false := by
  cases l with
  | nil => exact absurd rfl h
  | cons c t => rfl

lemma append_isEmpty_false (a t : List Char) (h : a ≠ []) : (a ++ t).isEmpty = false := by
  cases a with
  | nil => exact absurd rfl h
  | cons c tl => rfl

/-- Claim C1 counterexample: a stream consisting of a header line and a
single well-formed record block, terminated by a trailing newline but
with no blank-line separator, is tokenized into one block that still
contains the header line — `routeSplitFunc` returns from its
end-of-input branch before the header-stripping check runs, so the
block does not exclude the leading header line as the claim requires. -/
theorem c1_counterexample_header_at_eof :
    goodHeader (str "Pro X") ∧ goodBlock (str "udp 1") ∧
    tokenize (withHeader (str "Pro X") (tokenStream [str "udp 1"])) =
      .ok [str "Pro X\nudp 1"] ∧
    str "Pro X\nudp 1" ≠ str "udp 1" := by
  refine ⟨by decide, by decide, by decide, by decide⟩

/-- Claim C1 (amended): tokenizing a stream of N well-formed blocks
separated by blank lines and terminated by a trailing newline yields
exactly the N blocks in order, each excluding the separator; a leading
header line is excluded whenever a blank-line separator is found in the
buffered data (in particular always when N ≥ 2), but when the final
block is closed out at end-of-input with no separator present, a leading
header line is NOT stripped and remains part of the yielded block. -/
theorem c1_tokenizer_blocks (hdr : List Char) (bs : List (List Char))
    (hh : goodHeader hdr) (hbs : ∀ b ∈ bs, goodBlock b) (hne : bs ≠ []) :
    tokenize (tokenStream bs) = .ok bs ∧
    (2 ≤ bs.length → tokenize (withHeader hdr (tokenStream bs)) = .ok bs) ∧
    (∀ b, goodBlock b →
      tokenize (withHeader hdr (tokenStream [b])) = .ok [withHeader hdr b]) := by
  obtain ⟨hh1, hh2⟩ := hh
  have hhne : hdr ≠ [] := by
    intro h
    rw [h] at hh1
    exact absurd hh1 (by decide)
  refine ⟨tokenizeFuel_stream bs _ hbs hne (Nat.lt_succ_self _), ?_, ?_⟩
  · intro h2
    obtain ⟨b, b', bs', rfl⟩ : ∃ b b' bs', bs = b :: b' :: bs' := by
      cases bs with
      | nil => simp at h2
      | cons b t =>
        cases t with
        | nil => simp at h2
        | cons b' bs' => exact ⟨b, b', bs', rfl⟩
    obtain ⟨hbne, hbsep, hbhead, hblast, hbhdr⟩ :=
      hbs b (List.mem_cons_self b (b' :: bs'))
    have hdata : withHeader hdr (tokenStream (b :: b' :: bs')) =
        hdr ++ ('\n' :: (b ++ (ROUTE_SEP ++ tokenStream (b' :: bs')))) := by
      simp [withHeader, tokenStream, joinBlocks, List.append_assoc]
    rw [hdata]
    have hidx : findSubIdx ROUTE_SEP
        (hdr ++ ('\n' :: (b ++ (ROUTE_SEP ++ tokenStream (b' :: bs'))))) =
        some (b.length + 1 + hdr.length) := by
      rw [sepIdx_append hdr _ (sep_none_of_noNL hdr hh2) (getLast?_ne_of_noNL hdr hh2),
        sepIdx_cons_nl _ (by rw [head?_append_left b _ hbne]; exact hbhead),
        sepIdx_block_stream b _ hbsep hblast]
      rfl
    have hhp : ROUTE_HEADER.isPrefixOf
        (hdr ++ ('\n' :: (b ++ (ROUTE_SEP ++ tokenStream (b' :: bs'))))) = true :=
      isPrefixOf_of_isPrefixOf_append _ _ _ hh1
    have hnlidx : findSubIdx ['\n']
        (hdr ++ ('\n' :: (b ++ (ROUTE_SEP ++ tokenStream (b' :: bs'))))) =
        some hdr.length := by
      rw [nlIdx_append hdr _ hh2,
        show findSubIdx ['\n'] ('\n' :: (b ++ (ROUTE_SEP ++ tokenStream (b' :: bs')))) =
          some 0 from by rw [findSubIdx, if_pos (by simp [List.isPrefixOf])]]
      simp
    have hfrm : headerFrom
        (hdr ++ ('\n' :: (b ++ (ROUTE_SEP ++ tokenStream (b' :: bs'))))) =
        hdr.length + 1 := by
      rw [headerFrom, if_pos hhp, hnlidx]
    have hsplit := routeSplit_sep_eval _ (b.length + 1 + hdr.length)
      (append_isEmpty_false hdr _ hhne) hidx
    rw [hfrm] at hsplit
    have htok : ((hdr ++ ('\n' :: (b ++ (ROUTE_SEP ++ tokenStream (b' :: bs'))))).take
        (b.length + 1 + hdr.length)).drop (hdr.length + 1) = b := by
      rw [show hdr ++ ('\n' :: (b ++ (ROUTE_SEP ++ tokenStream (b' :: bs')))) =
        (hdr ++ '\n' :: b) ++ (ROUTE_SEP ++ tokenStream (b' :: bs')) from by simp]
      rw [show b.length + 1 + hdr.length = (hdr ++ '\n' :: b).length from by
        simp only [List.length_append, List.length_cons]; omega]
      rw [List.take_left]
      rw [show hdr ++ '\n' :: b = (hdr ++ ['\n']) ++ b from by simp]
      rw [show hdr.length + 1 = (hdr ++ ['\n']).length from by
        simp only [List.length_append, List.length_cons, List.length_nil]]
      exact List.drop_left _ _
    rw [htok] at hsplit
    have hdrop : (hdr ++ ('\n' :: (b ++ (ROUTE_SEP ++ tokenStream (b' :: bs'))))).drop
        (b.length + 1 + hdr.length + 2) = tokenStream (b' :: bs') := by
      rw [show hdr ++ ('\n' :: (b ++ (ROUTE_SEP ++ tokenStream (b' :: bs')))) =
        ((hdr ++ '\n' :: b) ++ ROUTE_SEP) ++ tokenStream (b' :: bs') from by
          simp [ROUTE_SEP, List.append_assoc]]
      rw [show b.length + 1 + hdr.length + 2 = ((hdr ++ '\n' :: b) ++ ROUTE_SEP).length from by
        simp only [List.length_append, List.length_cons, ROUTE_SEP, List.length_nil]; omega]
      exact List.drop_left _ _
    have hlenD : (hdr ++ ('\n' :: (b ++ (ROUTE_SEP ++ tokenStream (b' :: bs'))))).length =
        hdr.length + 1 + b.length + 2 + (tokenStream (b' :: bs')).length := by
      simp only [List.length_append, List.length_cons, ROUTE_SEP, List.length_nil]
      omega
    rw [tokenize, tokenizeFuel, hsplit]
    simp only [hdrop]
    rw [tokenizeFuel_stream (b' :: bs') _
      (fun x hx => hbs x (List.mem_cons_of_mem _ hx))
      (List.cons_ne_nil b' bs') (by omega)]
  · intro b0 hgb
    obtain ⟨hbne, hbsep, hbhead, hblast, hbhdr⟩ := hgb
    have hts : tokenStream [b0] = b0 ++ ['\n'] := by simp [tokenStream, joinBlocks]
    rw [hts]
    simp only [withHeader]
    have hidx : findSubIdx ROUTE_SEP (hdr ++ ('\n' :: (b0 ++ ['\n']))) = none := by
      rw [sepIdx_append hdr _ (sep_none_of_noNL hdr hh2) (getLast?_ne_of_noNL hdr hh2),
        sepIdx_cons_nl _ (by rw [head?_append_left b0 _ hbne]; exact hbhead),
        sepIdx_append b0 ['\n'] hbsep hblast]
      rfl
    have hshape : hdr ++ ('\n' :: (b0 ++ ['\n'])) = (hdr ++ '\n' :: b0) ++ ['\n'] := by
      simp
    have hshape2 : hdr ++ ('\n' :: (b0 ++ ['\n'])) = (hdr ++ '\n' :: b0) ++ ['\n'] := by
      simp
    have hnl : ((hdr ++ ('\n' :: (b0 ++ ['\n']))).getLast? == some '\n') = true := by
      rw [hshape2, List.getLast?_concat]
      rfl
    have hsplit := routeSplit_eof_nl _ (append_isEmpty_false hdr _ hhne) hidx hnl
    have hdl : (hdr ++ ('\n' :: (b0 ++ ['\n']))).dropLast = hdr ++ '\n' :: b0 := by
      rw [hshape2, List.dropLast_concat]
    rw [hdl] at hsplit
    rw [tokenize, tokenizeFuel, hsplit]
    simp only [List.drop_length]
    rw [tokenizeFuel_nil _ (by simp only [List.length_append, List.length_cons]; omega)]

/-- Claim C1 witness: the generic tokenization theorem applied to a
concrete two-block stream. -/
theorem c1_tokenizer_blocks_witness :
    goodHeader (str "Pro Inside") ∧
      (∀ b ∈ [str "udp 1", str "tcp 2"], goodBlock b) ∧
      ([str "udp 1", str "tcp 2"] : List (List Char)) ≠ [] ∧
      tokenize (tokenStream [str "udp 1", str "tcp 2"]) =
        .ok [str "udp 1", str "tcp 2"] :=
  ⟨by decide, by decide, by decide,
    (c1_tokenizer_blocks (str "Pro Inside") [str "udp 1", str "tcp 2"]
      (by decide) (by decide) (by decide)).1⟩

/-- Claim C6: when end-of-input is reached, no blank-line separator is
present in the remaining data, and the non-empty remainder does not end
in a newline, `routeSplitFunc` fails with the malformed-stream error. -/
theorem c6_malformed_stream_error (data : List Char) (h1 : data ≠ [])
    (h2 : findSubIdx ROUTE_SEP data = none) (h3 : data.getLast? ≠ some '\n') :
    routeSplitFunc data true =
      ⟨0, none, some (str "Improperly formatted file: it must end with an empty line")⟩ :=
  routeSplit_eof_err data (isEmpty_false_of_ne_nil data h1) h2
    (by rw [beq_eq_false_iff_ne]; exact h3)

/-- Claim C6 witness: the malformed-stream theorem applied to the
concrete remainder `"udp 1"`. -/
theorem c6_malformed_stream_error_witness :
    (str "udp 1" ≠ []) ∧ findSubIdx ROUTE_SEP (str "udp 1") = none ∧
      (str "udp 1").getLast? ≠ some '\n' ∧
      routeSplitFunc (str "udp 1") true =
        ⟨0, none, some (str "Improperly formatted file: it must end with an empty line")⟩ :=
  ⟨by decide, by decide, by decide,
    c6_malformed_stream_error (str "udp 1") (by decide) (by decide) (by decide)⟩


/-! ## Claim theorems for the enumeration, parser and aggregator -/

lemma headD_getD (l : List Char) (d : Char) : l.headD d = l.head?.getD d := by
  cases l <;> rfl

lemma headD_getD_list (l : List (List Char)) (d : List Char) :
    l.headD d = l.head?.getD d := by
  cases l <;> rfl

lemma parseIpPort_split_err (data name e : List Char)
    (h : splitHostPort data = .err e) :
    parseIpPort data name =
      .err (str "Could not parse " ++ name ++ str " address: " ++ e) := by
  rw [parseIpPort, h]

lemma parseIpPort_atoi (data name host port : List Char)
    (h : splitHostPort data = .ok (host, port)) :
    parseIpPort data name =
      (match atoi port with
       | .err e => .err (str "Could not parse " ++ name ++ str " port: " ++ e)
       | .ok p => .ok (parseIP host, p)) := by
  rw [parseIpPort, h]

/-- Claim C7: serializing any of the four protocol variants to its
canonical lowercase name and deserializing that name yields the original
variant; equivalently the programmatically derived reverse table inverts
the forward table on every variant. -/
theorem c7_name_roundtrip :
    (∀ p : NATProto, unmarshalNATProto (marshalNATProto p) = (p, none)) ∧
    (∀ p : NATProto, natReverseLookup (natName p) = p) := by
  refine ⟨fun p => ?_, fun p => ?_⟩ <;> cases p <;> decide

/-- Claim C4 (code bug): deserializing the JSON string `"xyz"` — which
is none of the four canonical protocol names — does NOT fail:
`UnmarshalJSON` ignores the reverse-table miss, so the Go zero value
`UDP_NAT` (udp) is silently produced with a nil error instead of the
claimed `UnknownProtocol` failure. -/
theorem c4_unknown_name_silently_udp :
    unmarshalNATProto (str "\"xyz\"") = (NATProto.udp, none) ∧
    (∀ p : NATProto, natName p ≠ str "xyz") := by
  refine ⟨by decide, fun p => ?_⟩
  cases p <;> decide

/-- Claim C3 counterexample: a block whose first line does not match the
five-token pattern makes `Parse` crash with a runtime index panic (the
nil `FindSubmatch` result is indexed), not return an error value as the
claim states. -/
theorem c3_counterexample_crash :
    routeFindSubmatch ((splitN3 (str "bogus line\n rest")).headD []) = none ∧
    Parse (str "bogus line\n rest") = .crash (str "runtime error: index out of range") := by
  exact ⟨by decide, by decide⟩

/-- Claim C3 (amended): a block whose first line does not match the
five-token pattern — or whose second line is missing or does not match
the timing pattern once the address fields parsed — makes `Parse` crash
with a runtime index panic rather than return an error value; error
values are returned only for address/port/timestamp/duration failures
inside matching lines. -/
theorem c3_regex_mismatch_crashes (data : List Char) :
    (routeFindSubmatch ((splitN3 data).headD []) = none →
      Parse data = .crash (str "runtime error: index out of range")) ∧
    (∀ m a, routeFindSubmatch ((splitN3 data).headD []) = some m →
      parseAddrs m (NAT_TRANSLATION (m.g1.headD ' ')) = .ok a →
      ((splitN3 data)[1]? = none ∨
        (∃ l1, (splitN3 data)[1]? = some l1 ∧ timeFindSubmatch l1 = none)) →
      Parse data = .crash (str "runtime error: index out of range")) := by
  constructor
  · intro h
    rw [headD_getD_list] at h
    simp [Parse, h]
  · intro m a hm ha hline
    rw [headD_getD_list] at hm
    rw [headD_getD] at ha
    rcases hline with hnone | ⟨l1, hl1, htf⟩
    · simp [Parse, hm, ha, hnone]
    · simp [Parse, hm, ha, hl1, htf]

/-- Claim C3 witness: the amended crash theorem applied to a concrete
non-matching block. -/
theorem c3_regex_mismatch_crashes_witness :
    routeFindSubmatch ((splitN3 (str "xyz")).headD []) = none ∧
    Parse (str "xyz") = .crash (str "runtime error: index out of range") :=
  ⟨by decide, (c3_regex_mismatch_crashes (str "xyz")).1 (by decide)⟩

/-- Claim C5 counterexample: the port segment `70000` is outside
0–65535, yet parsing the block succeeds and produces a record carrying
port 70000 — `strconv.Atoi`'s result is never range-checked. -/
theorem c5_counterexample_out_of_range_port :
    Parse (str "udp 1.2.3.4:70000 5.6.7.8:1 9.9.9.9:2 8.8.8.8:3\n create: 01/02/23 10:00:00, use: 01/02/23 10:05:00, timeout: 01:30:00") =
      .ok ⟨.udp, some ⟨1, 2, 3, 4⟩, 70000, some ⟨5, 6, 7, 8⟩, 1, some ⟨9, 9, 9, 9⟩, 2,
        some ⟨8, 8, 8, 8⟩, 3, ⟨2023, 1, 2, 10, 0, 0⟩, ⟨2023, 1, 2, 10, 5, 0⟩,
        5400000000000⟩ ∧
    ¬((70000 : Int) ≤ 65535) := by
  exact ⟨by decide, by decide⟩

/-- Claim C5 (amended): when an address field splits into host and port
but the port segment is not an integer accepted by `strconv.Atoi`,
`parseIpPort` fails with the port-variant error naming the field; no
0–65535 range check is applied, so any integer port — including
out-of-range values such as 70000 — is accepted into the record. -/
theorem c5_port_not_integer_fails (data name host port e : List Char)
    (hsplit : splitHostPort data = .ok (host, port))
    (hatoi : atoi port = .err e) :
    parseIpPort data name =
      .err (str "Could not parse " ++ name ++ str " port: " ++ e) := by
  simp [parseIpPort, hsplit, hatoi]

/-- Claim C5 witness: the port-error theorem applied to the concrete
field `1.2.3.4:ab`. -/
theorem c5_port_not_integer_fails_witness :
    splitHostPort (str "1.2.3.4:ab") = .ok (str "1.2.3.4", str "ab") ∧
    atoi (str "ab") = .err (str "strconv.Atoi: parsing \"ab\": invalid syntax") ∧
    parseIpPort (str "1.2.3.4:ab") (str "Inside Global") =
      .err (str "Could not parse Inside Global port: strconv.Atoi: parsing \"ab\": invalid syntax") := by
  refine ⟨by decide, by decide, ?_⟩
  exact c5_port_not_integer_fails (str "1.2.3.4:ab") (str "Inside Global")
    (str "1.2.3.4") (str "ab") (str "strconv.Atoi: parsing \"ab\": invalid syntax")
    (by decide) (by decide)

/-- Claim C8: a block whose protocol code resolves to the static variant
(code `---`) parses — when its timing line is well-formed — to a record
whose four address fields come from `net.ParseIP` on the bare literals
and whose four port fields are uniformly zero (the Go zero value: the
static branch never assigns them and attempts no port splitting). -/
theorem c8_static_ports_zero (data : List Char) (m : RouteMatch) (l1 : List Char)
    (t : TimeMatch) (c u : DateTime) (d : Int)
    (hm : routeFindSubmatch ((splitN3 data).headD []) = some m)
    (hg1 : m.g1 = str "---")
    (hl1 : (splitN3 data)[1]? = some l1)
    (ht : timeFindSubmatch l1 = some t)
    (hc : timeParse t.t1 = .ok c)
    (hu : timeParse t.t2 = .ok u)
    (hd : parseDuration (durationRewrite t.t3) = .ok d) :
    Parse data = .ok ⟨.static, parseIP m.g2, 0, parseIP m.g3, 0,
      parseIP m.g4, 0, parseIP m.g5, 0, c, u, d⟩ := by
  have hproto : NAT_TRANSLATION (m.g1.headD ' ') = .static := by
    rw [hg1]
    rfl
  rw [headD_getD_list] at hm
  rw [headD_getD] at hproto
  simp [Parse, hm, hproto, parseAddrs, hl1, ht, hc, hu, hd]

/-- Claim C8 witness: the static theorem applied to a concrete block of
four bare addresses. -/
theorem c8_static_ports_zero_witness :
    routeFindSubmatch ((splitN3 (str "--- 10.0.0.1 192.168.0.1 203.0.113.1 203.0.113.9\n create: 01/02/23 10:00:00, use: 01/02/23 10:05:00, timeout: 01:30:00")).headD []) =
      some ⟨str "---", str "10.0.0.1", str "192.168.0.1", str "203.0.113.1", str "203.0.113.9"⟩ ∧
    Parse (str "--- 10.0.0.1 192.168.0.1 203.0.113.1 203.0.113.9\n create: 01/02/23 10:00:00, use: 01/02/23 10:05:00, timeout: 01:30:00") =
      .ok ⟨.static, parseIP (str "10.0.0.1"), 0, parseIP (str "192.168.0.1"), 0,
        parseIP (str "203.0.113.1"), 0, parseIP (str "203.0.113.9"), 0,
        ⟨2023, 1, 2, 10, 0, 0⟩, ⟨2023, 1, 2, 10, 5, 0⟩, 5400000000000⟩ := by
  refine ⟨by decide, ?_⟩
  exact c8_static_ports_zero _
    ⟨str "---", str "10.0.0.1", str "192.168.0.1", str "203.0.113.1", str "203.0.113.9"⟩
    (str " create: 01/02/23 10:00:00, use: 01/02/23 10:05:00, timeout: 01:30:00")
    ⟨str "01/02/23 10:00:00", str "01/02/23 10:05:00", str "01:30:00"⟩
    ⟨2023, 1, 2, 10, 0, 0⟩ ⟨2023, 1, 2, 10, 5, 0⟩ 5400000000000
    (by decide) (by decide) (by decide) (by decide) (by decide) (by decide) (by decide)

/-- Claim C9: duration text in `HH:MM:SS` notation is rewritten to the
`<H>h<M>m<S>s` form before `time.ParseDuration` runs; in particular a
block whose timing line carries `timeout: 01:30:00` parses to a timeout
of ninety minutes (`90 * 60 * 10⁹` nanoseconds). -/
theorem c9_duration_rewrite (h1 h2 m1 m2 s1 s2 : Char)
    (hh1 : isDigitChar h1 = true) (hh2 : isDigitChar h2 = true)
    (hm1 : isDigitChar m1 = true) (hm2 : isDigitChar m2 = true)
    (hs1 : isDigitChar s1 = true) (hs2 : isDigitChar s2 = true) :
    durationRewrite [h1, h2, ':', m1, m2, ':', s1, s2] =
      [h1, h2, 'h', m1, m2, 'm', s1, s2, 's'] ∧
    parseDuration (durationRewrite (str "01:30:00")) = .ok (90 * 60 * 1000000000) ∧
    (∃ r, Parse (str "udp 10.0.0.1:1234 192.168.0.1:1234 203.0.113.1:80 203.0.113.1:80\n create: 01/02/23 10:00:00, use: 01/02/23 10:05:00, timeout: 01:30:00") =
        .ok r ∧ r.Timeout = 90 * 60 * 1000000000) := by
  refine ⟨?_, by decide, ?_⟩
  · simp [durationRewrite, hh1, hh2, hm1, hm2, hs1, hs2]
  · exact ⟨⟨.udp, some ⟨10, 0, 0, 1⟩, 1234, some ⟨192, 168, 0, 1⟩, 1234,
      some ⟨203, 0, 113, 1⟩, 80, some ⟨203, 0, 113, 1⟩, 80,
      ⟨2023, 1, 2, 10, 0, 0⟩, ⟨2023, 1, 2, 10, 5, 0⟩, 5400000000000⟩,
      by decide, by decide⟩

/-- Claim C9 witness: the rewrite theorem applied to the concrete digits
of `01:30:00`. -/
theorem c9_duration_rewrite_witness :
    isDigitChar '0' = true ∧ isDigitChar '1' = true ∧ isDigitChar '3' = true ∧
    durationRewrite (str "01:30:00") = str "01h30m00s" :=
  ⟨by decide, by decide, by decide,
    (c9_duration_rewrite '0' '1' '3' '0' '0' '0' (by decide) (by decide)
      (by decide) (by decide) (by decide) (by decide)).1⟩

/-- Claim C10: when the first line matches with a non-static code, the
first two fields parse, and the third address field cannot be split into
host and port, `Parse` fails with an address error identifying "Outside
Local"; and in general every `parseIpPort` error message begins by
naming the logical field it was called for. -/
theorem c10_outside_local_error (data : List Char) (m : RouteMatch)
    (ig il : Option IPv4) (igp ilp : Int) (e : List Char)
    (hm : routeFindSubmatch ((splitN3 data).headD []) = some m)
    (hns : NAT_TRANSLATION (m.g1.headD ' ') ≠ NATProto.static)
    (h2 : parseIpPort m.g2 (str "Inside Global") = .ok (ig, igp))
    (h3 : parseIpPort m.g3 (str "Inside Local") = .ok (il, ilp))
    (h4 : splitHostPort m.g4 = .err e) :
    Parse data = .errv (str "Could not parse Outside Local address: " ++ e) ∧
    (∀ f name msg, parseIpPort f name = .err msg →
      ∃ rest, msg = str "Could not parse " ++ name ++ rest) := by
  constructor
  · rw [headD_getD_list] at hm
    rw [headD_getD] at hns
    have h4' := parseIpPort_split_err m.g4 (str "Outside Local") e h4
    simp [Parse, hm, parseAddrs, hns, h2, h3, h4']
    rfl
  · intro f name msg hp
    cases hsp : splitHostPort f with
    | err e' =>
      rw [parseIpPort_split_err f name e' hsp] at hp
      cases hp
      exact ⟨str " address: " ++ e', by simp [List.append_assoc]⟩
    | ok v =>
      obtain ⟨host, port⟩ := v
      rw [parseIpPort_atoi f name host port hsp] at hp
      cases hat : atoi port with
      | err e' =>
        rw [hat] at hp
        cases hp
        exact ⟨str " port: " ++ e', by simp [List.append_assoc]⟩
      | ok p =>
        rw [hat] at hp
        simp at hp

/-- Claim C10 witness: the Outside-Local theorem applied to a concrete
block whose third field has no port. -/
theorem c10_outside_local_error_witness :
    routeFindSubmatch ((splitN3 (str "udp 1.2.3.4:1 2.2.2.2:2 3.3.3.3 4.4.4.4:4\n create: 01/02/23 10:00:00, use: 01/02/23 10:05:00, timeout: 01:30:00")).headD []) =
      some ⟨str "udp", str "1.2.3.4:1", str "2.2.2.2:2", str "3.3.3.3", str "4.4.4.4:4"⟩ ∧
    splitHostPort (str "3.3.3.3") = .err (str "address 3.3.3.3: missing port in address") ∧
    Parse (str "udp 1.2.3.4:1 2.2.2.2:2 3.3.3.3 4.4.4.4:4\n create: 01/02/23 10:00:00, use: 01/02/23 10:05:00, timeout: 01:30:00") =
      .errv (str "Could not parse Outside Local address: address 3.3.3.3: missing port in address") := by
  refine ⟨by decide, by decide, ?_⟩
  exact (c10_outside_local_error _
    ⟨str "udp", str "1.2.3.4:1", str "2.2.2.2:2", str "3.3.3.3", str "4.4.4.4:4"⟩
    (some ⟨1, 2, 3, 4⟩) (some ⟨2, 2, 2, 2⟩) 1 2
    (str "address 3.3.3.3: missing port in address")
    (by decide) (by decide) (by decide) (by decide) (by decide)).1

/-- Claim C2 (code bug): aggregating a record store whose icmp partition
is empty — here one udp and one tcp record, so every earlier division
has a non-zero divisor — aborts with the Go runtime divide-by-zero
error at the icmp percentage (`len(long_icmp)*100/len(icmp_nats)`); the
code has no zero guard and cannot report the claimed "not applicable"
value. -/
theorem c2_empty_icmp_division_crash :
    mainReport
      [⟨.udp, none, 0, none, 0, none, 0, none, 0, ⟨2023, 1, 2, 10, 0, 0⟩,
        ⟨2023, 1, 2, 10, 5, 0⟩, 5400000000000⟩,
       ⟨.tcp, none, 0, none, 0, none, 0, none, 0, ⟨2023, 1, 2, 10, 0, 0⟩,
        ⟨2023, 1, 2, 10, 5, 0⟩, 5400000000000⟩] =
      .err (str "runtime error: integer divide by zero") := by
  decide

end Cisco
